import Mathlib

/-!
Verification development for the StreetSmart pedestrian-safety repository.

The first part embeds, as executable Lean definitions, the data-processing
core of the repository:
  * `src/lib/processHeatmapData.js` — crime CSV points binned into a
    fixed-size lat/lng grid with decile percentiles (`Heatmap.processCSV`),
    plus the community-report utilities (`getConfidenceScore`,
    `isReportFresh`, `filterValidReports`, `calculateReportImpact`);
  * `src/lib/processLightingData.js` — pre-binned streetlight rows turned
    into a lighting grid with a `lightingScore` per cell
    (`Lighting.processCSV`);
  * the `handleVote` state updater of `src/pages/Index.tsx`.

Numbers are embedded as `ℚ` (JS numbers on the exact decimal inputs the
code manipulates), counts as `ℕ`, timestamps in milliseconds as `ℤ`, and
the impure `Date.now()` is an explicit `now` parameter.  `Math.floor` on a
quotient is `Rat.floor`; `Array.prototype.sort((a,b) => a-b)` on counts is
`List.insertionSort (· ≤ ·)` (any stable ascending sort of the multiset of
counts); JS `Map` insertion-keyed accumulation is `List.count` over the
list of bin keys, with one cell per distinct key.
-/

namespace StreetSmart

/-- Grid configuration constant `GRID_SIZE` shared by both processing
scripts. -/
def GRID_SIZE : ℚ := 0.005

/-- Grid bound `LAT_MIN`. -/
def LAT_MIN : ℚ := 43.58

/-- Grid bound `LAT_MAX`. -/
def LAT_MAX : ℚ := 43.85

/-- Grid bound `LON_MIN`. -/
def LON_MIN : ℚ := -79.64

/-- Grid bound `LON_MAX`. -/
def LON_MAX : ℚ := -79.12

/-- Decile threshold extraction shared by both scripts: the JS expression
`counts[Math.floor(counts.length * (k/10))] || 0` on the ascending-sorted
count list. -/
def pct (cs : List ℕ) (k : ℕ) : ℕ :=
  cs.getD (cs.length * k / 10) 0

/-- The ten decile thresholds: the JS `percentiles` array literal built
from the sorted counts (`counts[Math.floor(counts.length * 0.1)] || 0`
through `0.9`, then `counts[counts.length - 1] || 0`). -/
def percentilesOf (cs : List ℕ) : List ℕ :=
  [pct cs 1, pct cs 2, pct cs 3, pct cs 4, pct cs 5,
   pct cs 6, pct cs 7, pct cs 8, pct cs 9,
   cs.getD (cs.length - 1) 0]

/-- The percentile-rank `for` loop body shared by both scripts: scan the
thresholds in order, return `(i+1)*10` at the first index `i` with
`count ≤ percentiles[i]`, and `0` when no threshold matches. -/
def rankLoop (count : ℕ) : List ℕ → ℕ → ℕ
  | [], _ => 0
  | t :: ts, i => if count ≤ t then (i + 1) * 10 else rankLoop count ts (i + 1)

/-- The full percentile-rank computation of both scripts: the scan loop
followed by `if (percentile === 0) percentile = 100`. -/
def percentileRank (ps : List ℕ) (count : ℕ) : ℕ :=
  let r := rankLoop count ps 0
  if r = 0 then 100 else r

namespace Heatmap

/-- One parsed crime row: the `(lat, lng)` coordinates the binning stage of
`processHeatmapData.js` consumes (after CSV parsing and the date filter,
before the coordinate filter). -/
structure CrimePoint where
  lat : ℚ
  lng : ℚ
deriving DecidableEq

/-- The coordinate validity filter of `processCSV`: a row is kept unless
`lat < 43.5 || lat > 44.0` or `lng < -79.7 || lng > -79.0`. -/
def validCoord (p : CrimePoint) : Bool :=
  !(p.lat < 43.5 || p.lat > 44.0) && !(p.lng < -79.7 || p.lng > -79.0)

/-- The `crimes` array: input rows surviving the coordinate filter. -/
def crimesOf (rows : List CrimePoint) : List CrimePoint :=
  rows.filter validCoord

/-- `latBin = Math.floor((crime.lat - LAT_MIN) / GRID_SIZE)`. -/
def latBinOf (lat : ℚ) : ℤ :=
  ⌊(lat - LAT_MIN) / GRID_SIZE⌋

/-- `lngBin = Math.floor((crime.lng - LON_MIN) / GRID_SIZE)`. -/
def lngBinOf (lng : ℚ) : ℤ :=
  ⌊(lng - LON_MIN) / GRID_SIZE⌋

/-- The `Map` key `latBin_lngBin` of one crime. -/
def binKey (p : CrimePoint) : ℤ × ℤ :=
  (latBinOf p.lat, lngBinOf p.lng)

/-- The multiset of bin keys of all kept crimes, in input order. -/
def binKeys (rows : List CrimePoint) : List (ℤ × ℤ) :=
  (crimesOf rows).map binKey

/-- `cellCounts.get(key)`: how many kept crimes fall in the cell `k`. -/
def cellCount (rows : List CrimePoint) (k : ℤ × ℤ) : ℕ :=
  (binKeys rows).count k

/-- The distinct keys of the `cellCounts` map (the populated cells). -/
def cellKeys (rows : List CrimePoint) : List (ℤ × ℤ) :=
  (binKeys rows).dedup

/-- `Array.from(cellCounts.values()).sort((a, b) => a - b)`. -/
def sortedCounts (rows : List CrimePoint) : List ℕ :=
  List.insertionSort (· ≤ ·) ((cellKeys rows).map (cellCount rows))

/-- The color/opacity lookup `getColorPercentile` of
`processHeatmapData.js`. -/
def getColorPercentile (count : ℕ) (ps : List ℕ) : String × ℚ :=
  if count ≤ ps.getD 0 0 then ("#FFFFCC", 0.4)
  else if count ≤ ps.getD 1 0 then ("#FFFF99", 0.45)
  else if count ≤ ps.getD 2 0 then ("#FFFF66", 0.5)
  else if count ≤ ps.getD 3 0 then ("#FFED4E", 0.55)
  else if count ≤ ps.getD 4 0 then ("#FFDB4D", 0.6)
  else if count ≤ ps.getD 5 0 then ("#FFC04D", 0.65)
  else if count ≤ ps.getD 6 0 then ("#FF9933", 0.7)
  else if count ≤ ps.getD 7 0 then ("#FF6B1A", 0.75)
  else if count ≤ ps.getD 8 0 then ("#FF3300", 0.8)
  else ("#CC0000", 0.85)

/-- One emitted grid cell of the crime heatmap. -/
structure GridCell where
  latMin : ℚ
  latMax : ℚ
  lngMin : ℚ
  lngMax : ℚ
  crimeCount : ℕ
  percentile : ℕ
  color : String
  opacity : ℚ
deriving DecidableEq

/-- The grid bounds record returned by both scripts. -/
structure Bounds where
  latMin : ℚ
  latMax : ℚ
  lngMin : ℚ
  lngMax : ℚ
deriving DecidableEq

/-- The value returned by `processCSV` of `processHeatmapData.js`. -/
structure SafetyGrid where
  gridSize : ℚ
  cells : List GridCell
  bounds : Bounds
  percentiles : List ℕ
  totalCrimes : ℕ
deriving DecidableEq

/-- Build the emitted cell for key `k` holding `cnt` crimes, exactly as the
`cellCounts.forEach` body does. -/
def mkCell (ps : List ℕ) (cnt : ℕ) (k : ℤ × ℤ) : GridCell :=
  let latStart := LAT_MIN + (k.1 : ℚ) * GRID_SIZE
  let lngStart := LON_MIN + (k.2 : ℚ) * GRID_SIZE
  { latMin := latStart
    latMax := latStart + GRID_SIZE
    lngMin := lngStart
    lngMax := lngStart + GRID_SIZE
    crimeCount := cnt
    percentile := percentileRank ps cnt
    color := (getColorPercentile cnt ps).1
    opacity := (getColorPercentile cnt ps).2 }

/-- `processCSV` of `processHeatmapData.js`, from parsed rows to the grid
JSON value. -/
def processCSV (rows : List CrimePoint) : SafetyGrid :=
  let ps := percentilesOf (sortedCounts rows)
  { gridSize := GRID_SIZE
    cells := (cellKeys rows).map (fun k => mkCell ps (cellCount rows k) k)
    bounds := { latMin := LAT_MIN, latMax := LAT_MAX, lngMin := LON_MIN, lngMax := LON_MAX }
    percentiles := ps
    totalCrimes := (crimesOf rows).length }

/-- The in-bounds predicate as the specification words it: inside the
grid bounding box `lat ∈ [43.58, 43.85]`, `lng ∈ [-79.64, -79.12]`.
Stated from the spec for comparison with the filter the code applies. -/
def inGridBounds (p : CrimePoint) : Bool :=
  decide (LAT_MIN ≤ p.lat ∧ p.lat ≤ LAT_MAX ∧ LON_MIN ≤ p.lng ∧ p.lng ≤ LON_MAX)

end Heatmap

namespace Lighting

/-- One parsed streetlight row of `processLightingData.js`: pre-binned
`(lat_bin, lon_bin, light_count)`. -/
structure LightingRow where
  latBin : ℤ
  lonBin : ℤ
  lightCount : ℕ
deriving DecidableEq

/-- The color/opacity lookup `getLightingColor`. -/
def getLightingColor (count : ℕ) (ps : List ℕ) : String × ℚ :=
  if count ≤ ps.getD 0 0 then ("#1a1a2e", 0.7)
  else if count ≤ ps.getD 1 0 then ("#16213e", 0.7)
  else if count ≤ ps.getD 2 0 then ("#0f3460", 0.65)
  else if count ≤ ps.getD 3 0 then ("#533483", 0.65)
  else if count ≤ ps.getD 4 0 then ("#7c3aed", 0.6)
  else if count ≤ ps.getD 5 0 then ("#3b82f6", 0.6)
  else if count ≤ ps.getD 6 0 then ("#0ea5e9", 0.55)
  else if count ≤ ps.getD 7 0 then ("#06b6d4", 0.55)
  else if count ≤ ps.getD 8 0 then ("#14b8a6", 0.5)
  else ("#10b981", 0.5)

/-- One emitted lighting grid cell. -/
structure LightingCell where
  latMin : ℚ
  latMax : ℚ
  lngMin : ℚ
  lngMax : ℚ
  lightCount : ℕ
  percentile : ℕ
  color : String
  opacity : ℚ
  lightingScore : ℚ
deriving DecidableEq

/-- The value returned by `processCSV` of `processLightingData.js`. -/
structure LightingGrid where
  gridSize : ℚ
  cells : List LightingCell
  bounds : Heatmap.Bounds
  percentiles : List ℕ
  totalLights : ℕ
deriving DecidableEq

/-- `counts = lightingData.map(d => d.lightCount).sort((a, b) => a - b)`. -/
def sortedCounts (rows : List LightingRow) : List ℕ :=
  List.insertionSort (· ≤ ·) (rows.map LightingRow.lightCount)

/-- The `lightingData.forEach` body: build the emitted cell of one row,
including `lightingScore = 100 - (percentile * 0.9)`. -/
def mkCell (ps : List ℕ) (d : LightingRow) : LightingCell :=
  let latStart := LAT_MIN + (d.latBin : ℚ) * GRID_SIZE
  let lngStart := LON_MIN + (d.lonBin : ℚ) * GRID_SIZE
  let p := percentileRank ps d.lightCount
  { latMin := latStart
    latMax := latStart + GRID_SIZE
    lngMin := lngStart
    lngMax := lngStart + GRID_SIZE
    lightCount := d.lightCount
    percentile := p
    color := (getLightingColor d.lightCount ps).1
    opacity := (getLightingColor d.lightCount ps).2
    lightingScore := 100 - (p : ℚ) * 0.9 }

/-- `processCSV` of `processLightingData.js`, from parsed rows to the grid
JSON value. -/
def processCSV (rows : List LightingRow) : LightingGrid :=
  let ps := percentilesOf (sortedCounts rows)
  { gridSize := GRID_SIZE
    cells := rows.map (mkCell ps)
    bounds := { latMin := LAT_MIN, latMax := LAT_MAX, lngMin := LON_MIN, lngMax := LON_MAX }
    percentiles := ps
    totalLights := (rows.map LightingRow.lightCount).sum }

end Lighting

namespace Reports

/-- The report type union of `reportUtils`. -/
inductive ReportType where
  | bad_lighting
  | no_sidewalk
  | suspicious_area
  | blocked_path
deriving DecidableEq

/-- The `CommunityReport` interface of `reportUtils`; `timestamp` is epoch
milliseconds. -/
structure CommunityReport where
  id : String
  lat : ℚ
  lng : ℚ
  type : ReportType
  description : String
  timestamp : ℤ
  upvotes : ℕ
  downvotes : ℕ
  reportedBy : String
deriving DecidableEq

/-- `getConfidenceScore`: `upvotes / (upvotes + downvotes) * 100`, guarded
to `0` when there are no votes. -/
def getConfidenceScore (upvotes downvotes : ℕ) : ℚ :=
  let total := upvotes + downvotes
  if total = 0 then 0 else ((upvotes : ℚ) / (total : ℚ)) * 100

/-- `isReportFresh`: within 48 hours of `now` (`Date.now()` passed
explicitly). -/
def isReportFresh (now timestamp : ℤ) : Bool :=
  let fortyEightHours : ℤ := 48 * 60 * 60 * 1000
  decide (now - timestamp < fortyEightHours)

/-- `filterValidReports`: keep a report when it is fresh or confirmed by
at least 3 upvotes, and its confidence score is at least 50. -/
def filterValidReports (now : ℤ) (reports : List CommunityReport) : List CommunityReport :=
  reports.filter fun report =>
    let isFresh := isReportFresh now report.timestamp
    let isConfirmed := decide (3 ≤ report.upvotes)
    let confidenceScore := getConfidenceScore report.upvotes report.downvotes
    (isFresh || isConfirmed) && decide (50 ≤ confidenceScore)

/-- The `baseImpact` object literal inside `calculateReportImpact`. -/
def baseImpact (t : ReportType) : ℚ :=
  match t with
  | ReportType.bad_lighting => -15
  | ReportType.no_sidewalk => -20
  | ReportType.suspicious_area => -25
  | ReportType.blocked_path => -30

/-- `calculateReportImpact`: the base impact of the report type scaled by
confidence. -/
def calculateReportImpact (report : CommunityReport) : ℚ :=
  let confidenceScore := getConfidenceScore report.upvotes report.downvotes
  baseImpact report.type * (confidenceScore / 100)

/-- The vote direction of `handleVote`. -/
inductive VoteType where
  | up
  | down
deriving DecidableEq

/-- The state updater passed to `setCommunityReports` by `handleVote` in
`Index.tsx`: bump one counter of every report whose id matches. -/
def handleVote (reportId : String) (voteType : VoteType) (reports : List CommunityReport) :
    List CommunityReport :=
  reports.map fun report =>
    if report.id = reportId then
      { report with
        upvotes := if voteType = VoteType.up then report.upvotes + 1 else report.upvotes
        downvotes := if voteType = VoteType.down then report.downvotes + 1 else report.downvotes }
    else report

end Reports

namespace Routes

/-- The per-route score record described by the spec (`RouteScore`); the
opaque provider route object is stood in for by `routeId`. -/
structure RouteScore where
  routeId : ℕ
  distanceMeters : ℚ
  durationSeconds : ℚ
  crimeSafetyScore : ℚ
  lightingScore : ℚ
  combinedSafetyScore : ℚ
deriving DecidableEq

/-- The comparison record described by the spec (`RouteComparison`). -/
structure RouteComparison where
  routes : List RouteScore
  shortest : RouteScore
  safest : RouteScore
  balanced : RouteScore
deriving DecidableEq

/-- Select, among `first :: rest`, the element every later strictly-better
candidate replaces: a left fold keeping the current best, so the returned
value is always one of the inputs (a reference into the list, never a
fresh record). -/
def selectBest (better : RouteScore → RouteScore → Bool) (first : RouteScore)
    (rest : List RouteScore) : RouteScore :=
  rest.foldl (fun best r => if better r best then r else best) first

/-- Spec rule for `shortest`: min `distanceMeters`, ties broken by min
`durationSeconds`. -/
def shorterRoute (a b : RouteScore) : Bool :=
  decide (a.distanceMeters < b.distanceMeters ∨
    (a.distanceMeters = b.distanceMeters ∧ a.durationSeconds < b.durationSeconds))

/-- Spec rule for `safest`: max `combinedSafetyScore`, ties broken by min
`distanceMeters`. -/
def saferRoute (a b : RouteScore) : Bool :=
  decide (b.combinedSafetyScore < a.combinedSafetyScore ∨
    (a.combinedSafetyScore = b.combinedSafetyScore ∧ a.distanceMeters < b.distanceMeters))

/-- Spec objective for `balanced`:
`combinedSafetyScore − P * (distance − shortestDistance) / shortestDistance`
with the documented default penalty `P = 40`. -/
def balancedValue (shortestDistance : ℚ) (r : RouteScore) : ℚ :=
  r.combinedSafetyScore - 40 * ((r.distanceMeters - shortestDistance) / shortestDistance)

/-- Modelled from the spec: `compareRoutes` is defined in
`src/lib/heatmapUtils`, which is absent from the snapshot (only its import
and call sites in `Map.tsx` are present).  Following §4.5 of the spec, it
scores a nonempty candidate list and selects the `shortest`, `safest` and
`balanced` representatives among the scored routes, each selection being
one of the list's own entries. -/
def compareRoutes (first : RouteScore) (rest : List RouteScore) : RouteComparison :=
  let shortest := selectBest shorterRoute first rest
  let safest := selectBest saferRoute first rest
  let balanced := selectBest
    (fun a b => decide (balancedValue shortest.distanceMeters b <
      balancedValue shortest.distanceMeters a)) first rest
  { routes := first :: rest
    shortest := shortest
    safest := safest
    balanced := balanced }

end Routes

/-- A single in-bounds crime point: one populated cell of count 1, so all
populated cells trivially share the same count. -/
def singleCrime : List Heatmap.CrimePoint :=
  [{ lat := 43.6, lng := -79.5 }]

/-- A crime point that passes the coordinate filter of the code
(`43.5 ≤ lat ≤ 44.0`, `-79.7 ≤ lng ≤ -79.0`) but lies outside the grid
bounding box (`lat < 43.58`). -/
def strayCrime : List Heatmap.CrimePoint :=
  [{ lat := 43.55, lng := -79.3 }]

/-- Two streetlight rows with distinct counts, giving two cells with
distinct percentiles. -/
def lightRows : List Lighting.LightingRow :=
  [{ latBin := 0, lonBin := 0, lightCount := 1 },
   { latBin := 0, lonBin := 1, lightCount := 2 }]

/-- The example report of the spec: a `blocked_path` report with 10
upvotes and no downvotes. -/
def blockedReport : Reports.CommunityReport :=
  { id := "r1", lat := 43.66, lng := -79.38, type := Reports.ReportType.blocked_path,
    description := "road closed", timestamp := 0, upvotes := 10, downvotes := 0,
    reportedBy := "u1" }

/-- A report with no votes at all. -/
def zeroVoteReport : Reports.CommunityReport :=
  { id := "r2", lat := 43.66, lng := -79.38, type := Reports.ReportType.bad_lighting,
    description := "dark corner", timestamp := 0, upvotes := 0, downvotes := 0,
    reportedBy := "u2" }

/-- A one-element report list for exercising `handleVote`. -/
def voteDemo : List Reports.CommunityReport :=
  [{ id := "a", lat := 0, lng := 0, type := Reports.ReportType.bad_lighting,
     description := "", timestamp := 0, upvotes := 0, downvotes := 0, reportedBy := "u" }]

end StreetSmart

namespace StreetSmart

/-- The scan loop either misses every threshold (result `0`) or returns a
multiple of ten between `10*(i+1)` and `10*(i + ps.length)`. -/
theorem rankLoop_cases (c : ℕ) (ps : List ℕ) : ∀ i : ℕ,
    rankLoop c ps i = 0 ∨
      (rankLoop c ps i % 10 = 0 ∧ 10 * (i + 1) ≤ rankLoop c ps i ∧
        rankLoop c ps i ≤ 10 * (i + ps.length)) := by
  induction ps with
  | nil => intro i; left; rfl
  | cons t ts ih =>
    intro i
    by_cases hct : c ≤ t
    · right
      simp only [rankLoop, if_pos hct, List.length_cons]
      omega
    · simp only [rankLoop, if_neg hct, List.length_cons]
      rcases ih (i + 1) with h0 | ⟨hm, hlo, hhi⟩
      · left; exact h0
      · right; exact ⟨hm, by omega, by omega⟩

/-- A smaller count succeeds at every threshold a larger count succeeds
at, so its scan result is found no later and is no bigger. -/
theorem rankLoop_mono {a b : ℕ} (h : b ≤ a) : ∀ (ps : List ℕ) (i : ℕ),
    rankLoop a ps i ≠ 0 → rankLoop b ps i ≠ 0 ∧ rankLoop b ps i ≤ rankLoop a ps i := by
  intro ps
  induction ps with
  | nil => intro i ha; exact absurd rfl ha
  | cons t ts ih =>
    intro i ha
    by_cases hat : a ≤ t
    · have hbt : b ≤ t := le_trans h hat
      simp only [rankLoop, if_pos hat, if_pos hbt]
      omega
    · simp only [rankLoop, if_neg hat] at ha ⊢
      by_cases hbt : b ≤ t
      · rcases rankLoop_cases a ts (i + 1) with h0 | ⟨_, hlo, _⟩
        · exact absurd h0 ha
        · simp only [if_pos hbt]
          omega
      · simp only [if_neg hbt]
        exact ih (i + 1) ha

/-- The percentile rank against at most ten thresholds is monotone in the
count. -/
theorem percentileRank_mono (ps : List ℕ) (hlen : ps.length ≤ 10) {a b : ℕ} (h : b ≤ a) :
    percentileRank ps b ≤ percentileRank ps a := by
  unfold percentileRank
  by_cases ha : rankLoop a ps 0 = 0
  · have hb100 : ∀ c, rankLoop c ps 0 ≤ 100 := by
      intro c
      rcases rankLoop_cases c ps 0 with h0 | ⟨_, _, hhi⟩ <;> omega
    by_cases hb : rankLoop b ps 0 = 0
    · simp [ha, hb]
    · simp only [ha, if_pos rfl, if_neg hb]
      exact hb100 b
  · have hmono := rankLoop_mono h ps 0 ha
    simp only [if_neg ha, if_neg hmono.1]
    exact hmono.2

/-- The percentile rank against exactly ten thresholds is always one of
the ten decile values `10, 20, ..., 100`. -/
theorem percentileRank_mem_deciles (ps : List ℕ) (hlen : ps.length = 10) (c : ℕ) :
    percentileRank ps c ∈ ([10, 20, 30, 40, 50, 60, 70, 80, 90, 100] : List ℕ) := by
  unfold percentileRank
  rcases rankLoop_cases c ps 0 with h0 | ⟨hm, hlo, hhi⟩
  · simp [h0]
  · have hne : rankLoop c ps 0 ≠ 0 := by omega
    rw [hlen] at hhi
    simp only [if_neg hne, List.mem_cons, List.not_mem_nil, or_false]
    omega

/-- `percentilesOf` always yields exactly ten thresholds. -/
theorem percentilesOf_length (cs : List ℕ) : (percentilesOf cs).length = 10 := rfl

/-- The percentile rank taken against the thresholds derived from any
count list is monotone in the count. -/
theorem percentileRank_percentilesOf_mono (cs : List ℕ) {a b : ℕ} (h : b ≤ a) :
    percentileRank (percentilesOf cs) b ≤ percentileRank (percentilesOf cs) a :=
  percentileRank_mono _ (by rw [percentilesOf_length]) h

/-- The percentile rank taken against the thresholds derived from any
count list is one of the ten decile values. -/
theorem percentileRank_percentilesOf_mem (cs : List ℕ) (c : ℕ) :
    percentileRank (percentilesOf cs) c ∈ ([10, 20, 30, 40, 50, 60, 70, 80, 90, 100] : List ℕ) :=
  percentileRank_mem_deciles _ (percentilesOf_length cs) c

/-- `getD` with default `0` is monotone along a sorted list as long as the
larger index is in range. -/
theorem getD_le_getD_of_sorted (cs : List ℕ) (h : List.Sorted (· ≤ ·) cs) {i j : ℕ}
    (hij : i ≤ j) (hj : j < cs.length) :
    cs.getD i 0 ≤ cs.getD j 0 := by
  have hi : i < cs.length := lt_of_le_of_lt hij hj
  rw [List.getD_eq_get cs 0 hi, List.getD_eq_get cs 0 hj]
  exact h.rel_get_of_le (by exact hij)

/-- The decile index `n * k / 10` is in range for a nonempty list when
`k ≤ 9`. -/
theorem pctIdx_lt (n k : ℕ) (hn : 0 < n) (hk : k ≤ 9) : n * k / 10 < n := by
  have h1 : n * k ≤ n * 9 := Nat.mul_le_mul_left n hk
  have h2 : n * 9 / 10 * 10 ≤ n * 9 := Nat.div_mul_le_self _ _
  have h3 : n * k / 10 ≤ n * 9 / 10 := Nat.div_le_div_right h1
  omega

/-- The ten decile thresholds extracted from a sorted count list are
non-decreasing. -/
theorem sorted_percentilesOf (cs : List ℕ) (h : List.Sorted (· ≤ ·) cs) :
    List.Sorted (· ≤ ·) (percentilesOf cs) := by
  rcases eq_or_ne cs [] with hcs | hcs
  · subst hcs; decide
  · have hn : 0 < cs.length := List.length_pos.mpr hcs
    have adj : ∀ j k, j ≤ k → k ≤ 9 → pct cs j ≤ pct cs k := by
      intro j k hjk hk
      exact getD_le_getD_of_sorted cs h
        (Nat.div_le_div_right (Nat.mul_le_mul_left _ hjk)) (pctIdx_lt _ _ hn hk)
    have last : ∀ k, k ≤ 9 → pct cs k ≤ cs.getD (cs.length - 1) 0 := by
      intro k hk
      have hlt : cs.length * k / 10 < cs.length := pctIdx_lt _ _ hn hk
      exact getD_le_getD_of_sorted cs h (by omega) (by omega)
    apply List.chain'_iff_pairwise.mp
    simp only [percentilesOf, List.chain'_cons, List.chain'_singleton, and_true]
    exact ⟨adj 1 2 (by norm_num) (by norm_num), adj 2 3 (by norm_num) (by norm_num),
      adj 3 4 (by norm_num) (by norm_num), adj 4 5 (by norm_num) (by norm_num),
      adj 5 6 (by norm_num) (by norm_num), adj 6 7 (by norm_num) (by norm_num),
      adj 7 8 (by norm_num) (by norm_num), adj 8 9 (by norm_num) (by norm_num),
      last 9 (by norm_num)⟩

namespace Heatmap

/-- The `crimeCount` field of an emitted cell is the accumulated count. -/
theorem mkCell_crimeCount (ps : List ℕ) (cnt : ℕ) (k : ℤ × ℤ) :
    (mkCell ps cnt k).crimeCount = cnt := rfl

/-- The `percentile` field of an emitted cell is the rank of its count. -/
theorem mkCell_percentile (ps : List ℕ) (cnt : ℕ) (k : ℤ × ℤ) :
    (mkCell ps cnt k).percentile = percentileRank ps cnt := rfl

/-- Membership in the emitted cell list, unfolded. -/
theorem mem_cells (rows : List CrimePoint) (c : GridCell) :
    c ∈ (processCSV rows).cells ↔
      ∃ k ∈ cellKeys rows,
        mkCell (percentilesOf (sortedCounts rows)) (cellCount rows k) k = c := by
  simp [processCSV, List.mem_map]

/-- The emitted cell counts are exactly the accumulated counts of the
distinct keys. -/
theorem cells_map_crimeCount (rows : List CrimePoint) :
    (processCSV rows).cells.map GridCell.crimeCount = (cellKeys rows).map (cellCount rows) := by
  simp [processCSV, List.map_map, Function.comp_def, mkCell_crimeCount]

end Heatmap

namespace Routes

/-- `selectBest` always returns one of its candidates. -/
theorem selectBest_mem (f : RouteScore → RouteScore → Bool) (first : RouteScore)
    (rest : List RouteScore) : selectBest f first rest ∈ first :: rest := by
  induction rest generalizing first with
  | nil => simp [selectBest]
  | cons x xs ih =>
    have h := ih (if f x first then x else first)
    by_cases hfx : f x first <;>
      simp only [selectBest, List.foldl_cons, hfx, if_true, if_false] at h ⊢ <;>
      simp only [List.mem_cons] at h ⊢ <;> tauto

end Routes

namespace Heatmap

/-- The sorted count list has one entry per populated cell. -/
theorem sortedCounts_length (rows : List CrimePoint) :
    (sortedCounts rows).length = (cellKeys rows).length := by
  rw [sortedCounts, List.length_insertionSort, List.length_map]

/-- On a list whose entries are all `c`, every in-range `getD` is `c`. -/
theorem getD_of_all_eq {cs : List ℕ} {c : ℕ} (hall : ∀ x ∈ cs, x = c) {i : ℕ}
    (hi : i < cs.length) : cs.getD i 0 = c := by
  rw [List.getD_eq_getElem cs 0 hi]
  exact hall _ (List.getElem_mem hi)

/-- When all sorted counts are one value `c`, all ten thresholds are `c`. -/
theorem percentilesOf_all_eq {cs : List ℕ} {c : ℕ} (hall : ∀ x ∈ cs, x = c)
    (hne : cs ≠ []) : percentilesOf cs = [c, c, c, c, c, c, c, c, c, c] := by
  have hn : 0 < cs.length := List.length_pos.mpr hne
  have hpct : ∀ k, k ≤ 9 → pct cs k = c := by
    intro k hk
    exact getD_of_all_eq hall (pctIdx_lt _ _ hn hk)
  have hlast : cs.getD (cs.length - 1) 0 = c := getD_of_all_eq hall (by omega)
  simp only [percentilesOf, hlast, hpct 1 (by norm_num), hpct 2 (by norm_num),
    hpct 3 (by norm_num), hpct 4 (by norm_num), hpct 5 (by norm_num), hpct 6 (by norm_num),
    hpct 7 (by norm_num), hpct 8 (by norm_num), hpct 9 (by norm_num)]

/-- A count equal to ten equal thresholds ranks in the first decile. -/
theorem percentileRank_all_eq (c : ℕ) :
    percentileRank [c, c, c, c, c, c, c, c, c, c] c = 10 := by
  simp [percentileRank, rankLoop]

end Heatmap

/-- Counting with the component-wise `BEq` on keys agrees with counting
with the equality-derived `BEq`. -/
theorem count_prodBEq_eq (l : List (ℤ × ℤ)) (k : ℤ × ℤ) :
    l.count k = @List.count _ instBEqOfDecidableEq k l := by
  simp only [List.count]
  refine List.countP_congr ?_
  intro x hx
  rw [beq_iff_eq]
  exact ⟨fun h => decide_eq_true h, fun h => of_decide_eq_true h⟩

/-- Summing, over the distinct keys, the number of occurrences of each
key recovers the length of the key list. -/
theorem sum_counts_eq_length (l : List (ℤ × ℤ)) :
    (l.dedup.map fun k => l.count k).sum = l.length := by
  have h : (fun k => l.count k) = (fun k => @List.count _ instBEqOfDecidableEq k l) :=
    funext fun k => count_prodBEq_eq l k
  rw [h]
  exact List.sum_map_count_dedup_eq_length l

/-- The single in-bounds point passes the coordinate filter. -/
theorem singleCrime_valid :
    Heatmap.validCoord { lat := 43.6, lng := -79.5 } = true := by
  norm_num [Heatmap.validCoord]

/-- The single in-bounds point bins to cell `(4, 28)`. -/
theorem singleCrime_binKeys : Heatmap.binKeys singleCrime = [(4, 28)] := by
  have hlat : Heatmap.latBinOf 43.6 = 4 := by
    rw [Heatmap.latBinOf]
    have h : ((43.6 : ℚ) - LAT_MIN) / GRID_SIZE = ((4 : ℤ) : ℚ) := by
      norm_num [LAT_MIN, GRID_SIZE]
    rw [h, Int.floor_intCast]
  have hlng : Heatmap.lngBinOf (-79.5) = 28 := by
    rw [Heatmap.lngBinOf]
    have h : ((-79.5 : ℚ) - LON_MIN) / GRID_SIZE = ((28 : ℤ) : ℚ) := by
      norm_num [LON_MIN, GRID_SIZE]
    rw [h, Int.floor_intCast]
  simp [Heatmap.binKeys, Heatmap.crimesOf, singleCrime, singleCrime_valid,
    Heatmap.binKey, hlat, hlng]

/-- The whole grid of the single in-bounds point: one cell of count 1
against ten thresholds equal to 1. -/
theorem singleCrime_cells :
    (Heatmap.processCSV singleCrime).cells =
      [Heatmap.mkCell [1, 1, 1, 1, 1, 1, 1, 1, 1, 1] 1 (4, 28)] := by
  have hck : Heatmap.cellKeys singleCrime = [(4, 28)] := by
    rw [Heatmap.cellKeys, singleCrime_binKeys]; decide
  have hcc : Heatmap.cellCount singleCrime (4, 28) = 1 := by
    rw [Heatmap.cellCount, singleCrime_binKeys]; decide
  have hsc : Heatmap.sortedCounts singleCrime = [1] := by
    rw [Heatmap.sortedCounts, hck]
    simp only [List.map_cons, List.map_nil, hcc]
    decide
  have hps : percentilesOf [1] = [1, 1, 1, 1, 1, 1, 1, 1, 1, 1] := by decide
  simp only [Heatmap.processCSV, hck, hsc, hps, hcc, List.map_cons, List.map_nil]

/-- The stray point passes the coordinate filter. -/
theorem strayCrime_valid :
    Heatmap.validCoord { lat := 43.55, lng := -79.3 } = true := by
  norm_num [Heatmap.validCoord]

/-- The stray point bins to the (out-of-grid) cell `(-6, 68)`. -/
theorem strayCrime_binKeys : Heatmap.binKeys strayCrime = [(-6, 68)] := by
  have hlat : Heatmap.latBinOf 43.55 = -6 := by
    rw [Heatmap.latBinOf]
    have h : ((43.55 : ℚ) - LAT_MIN) / GRID_SIZE = ((-6 : ℤ) : ℚ) := by
      norm_num [LAT_MIN, GRID_SIZE]
    rw [h, Int.floor_intCast]
  have hlng : Heatmap.lngBinOf (-79.3) = 68 := by
    rw [Heatmap.lngBinOf]
    have h : ((-79.3 : ℚ) - LON_MIN) / GRID_SIZE = ((68 : ℤ) : ℚ) := by
      norm_num [LON_MIN, GRID_SIZE]
    rw [h, Int.floor_intCast]
  simp [Heatmap.binKeys, Heatmap.crimesOf, strayCrime, strayCrime_valid,
    Heatmap.binKey, hlat, hlng]

/-- The stray point lies outside the grid bounding box of the spec. -/
theorem strayCrime_not_inGridBounds :
    Heatmap.inGridBounds { lat := 43.55, lng := -79.3 } = false := by
  norm_num [Heatmap.inGridBounds, LAT_MIN, LAT_MAX, LON_MIN, LON_MAX]

/-- C1 (counterexample).  One in-bounds point produces one populated
cell, so every populated cell has the same count; yet that cell's
percentile is 10, not 100, refuting the claimed all-equal-counts
behaviour. -/
theorem C1_counterexample :
    (Heatmap.processCSV singleCrime).cells ≠ [] ∧
    (∀ cell ∈ (Heatmap.processCSV singleCrime).cells, cell.crimeCount = 1) ∧
    ¬ (∀ cell ∈ (Heatmap.processCSV singleCrime).cells, cell.percentile = 100) := by
  rw [singleCrime_cells]
  refine ⟨by simp, ?_, ?_⟩
  · intro cell hcell
    rw [List.mem_singleton] at hcell
    subst hcell
    rfl
  · intro hall
    have h := hall _ (List.mem_singleton.mpr rfl)
    rw [Heatmap.mkCell_percentile, Heatmap.percentileRank_all_eq] at h
    exact absurd h (by decide)

/-- C1 (amended).  In `processCSV`, when every populated grid cell has the
same count, every cell resolves to percentile 10 (all ten thresholds equal
that count, so the scan succeeds at the first decile), deterministically
and without division by zero. -/
theorem C1_theorem (rows : List Heatmap.CrimePoint) (c : ℕ)
    (hne : (Heatmap.processCSV rows).cells ≠ [])
    (hall : ∀ cell ∈ (Heatmap.processCSV rows).cells, cell.crimeCount = c) :
    ∀ cell ∈ (Heatmap.processCSV rows).cells, cell.percentile = 10 := by
  have hkeys : Heatmap.cellKeys rows ≠ [] := by
    intro h
    exact hne (by simp [Heatmap.processCSV, h])
  have hcnt : ∀ k ∈ Heatmap.cellKeys rows, Heatmap.cellCount rows k = c := by
    intro k hk
    have hmem : Heatmap.mkCell (percentilesOf (Heatmap.sortedCounts rows))
        (Heatmap.cellCount rows k) k ∈ (Heatmap.processCSV rows).cells :=
      (Heatmap.mem_cells rows _).mpr ⟨k, hk, rfl⟩
    have := hall _ hmem
    rwa [Heatmap.mkCell_crimeCount] at this
  have hsc : ∀ x ∈ Heatmap.sortedCounts rows, x = c := by
    intro x hx
    rw [Heatmap.sortedCounts] at hx
    have hx2 := (List.perm_insertionSort (· ≤ ·) _).mem_iff.mp hx
    obtain ⟨k, hk, rfl⟩ := List.mem_map.mp hx2
    exact hcnt k hk
  have hscne : Heatmap.sortedCounts rows ≠ [] := by
    intro h
    have := Heatmap.sortedCounts_length rows
    rw [h] at this
    exact hkeys (List.length_eq_zero.mp this.symm)
  have hps : percentilesOf (Heatmap.sortedCounts rows) = [c, c, c, c, c, c, c, c, c, c] :=
    Heatmap.percentilesOf_all_eq hsc hscne
  intro cell hcell
  obtain ⟨k, hk, he⟩ := (Heatmap.mem_cells rows _).mp hcell
  subst he
  rw [Heatmap.mkCell_percentile, hps, hcnt k hk, Heatmap.percentileRank_all_eq]

/-- C1 (witness for the amended claim): the single-point grid satisfies
the all-equal-counts hypothesis and its one cell gets percentile 10. -/
theorem C1_witness :
    (Heatmap.mkCell [1, 1, 1, 1, 1, 1, 1, 1, 1, 1] 1 (4, 28)).percentile = 10 := by
  have h1 : (Heatmap.processCSV singleCrime).cells ≠ [] := by
    rw [singleCrime_cells]; simp
  have h2 : ∀ cell ∈ (Heatmap.processCSV singleCrime).cells, cell.crimeCount = 1 := by
    rw [singleCrime_cells]
    intro cell hcell
    rw [List.mem_singleton] at hcell
    subst hcell
    rfl
  exact C1_theorem singleCrime 1 h1 h2 _ (by rw [singleCrime_cells]; exact List.mem_singleton.mpr rfl)

/-- C3 (counterexample).  A nonempty set with one point passing the
code's coordinate filter but outside the grid bounding box is binned
anyway: the cell counts sum to 1 while the number of bounding-box
in-bounds points is 0. -/
theorem C3_counterexample :
    ¬ (((Heatmap.processCSV strayCrime).cells.map Heatmap.GridCell.crimeCount).sum =
        (strayCrime.filter Heatmap.inGridBounds).length) := by
  have hsum : ((Heatmap.processCSV strayCrime).cells.map Heatmap.GridCell.crimeCount).sum = 1 := by
    rw [Heatmap.cells_map_crimeCount, Heatmap.cellKeys,
      show Heatmap.cellCount strayCrime = fun k => (Heatmap.binKeys strayCrime).count k from rfl,
      sum_counts_eq_length, strayCrime_binKeys]
    rfl
  have hfil : (strayCrime.filter Heatmap.inGridBounds).length = 0 := by
    simp [strayCrime, strayCrime_not_inGridBounds]
  rw [hsum, hfil]
  decide

/-- C3 (amended).  For any nonempty row set, the sum of the counts of all
produced cells equals the number of points passing the code's coordinate
filter (`lat ∈ [43.5, 44.0]`, `lng ∈ [-79.7, -79.0]`) — all such points
are binned, including points outside the grid bounding box. -/
theorem C3_theorem (rows : List Heatmap.CrimePoint) (hne : rows ≠ []) :
    ((Heatmap.processCSV rows).cells.map Heatmap.GridCell.crimeCount).sum =
      (rows.filter Heatmap.validCoord).length := by
  rw [Heatmap.cells_map_crimeCount, Heatmap.cellKeys,
    show Heatmap.cellCount rows = fun k => (Heatmap.binKeys rows).count k from rfl,
    sum_counts_eq_length, Heatmap.binKeys, List.length_map]
  rfl

/-- C3 (witness for the amended claim). -/
theorem C3_witness :
    ((Heatmap.processCSV singleCrime).cells.map Heatmap.GridCell.crimeCount).sum =
      (singleCrime.filter Heatmap.validCoord).length :=
  C3_theorem singleCrime (by simp [singleCrime])

/-- C4.  For every grid built from a nonempty point set, the percentiles
array is non-decreasing, and among produced cells a strictly larger count
never gets a smaller percentile. -/
theorem C4_theorem (rows : List Heatmap.CrimePoint) (hne : rows ≠ []) :
    List.Sorted (· ≤ ·) (Heatmap.processCSV rows).percentiles ∧
    ∀ c1 ∈ (Heatmap.processCSV rows).cells, ∀ c2 ∈ (Heatmap.processCSV rows).cells,
      c2.crimeCount < c1.crimeCount → c2.percentile ≤ c1.percentile := by
  constructor
  · have hs : List.Sorted (· ≤ ·) (Heatmap.sortedCounts rows) := by
      rw [Heatmap.sortedCounts]
      exact List.sorted_insertionSort _ _
    have h := sorted_percentilesOf _ hs
    simpa [Heatmap.processCSV] using h
  · intro c1 h1 c2 h2 hlt
    obtain ⟨k1, hk1, he1⟩ := (Heatmap.mem_cells rows _).mp h1
    obtain ⟨k2, hk2, he2⟩ := (Heatmap.mem_cells rows _).mp h2
    subst he1
    subst he2
    rw [Heatmap.mkCell_crimeCount, Heatmap.mkCell_crimeCount] at hlt
    rw [Heatmap.mkCell_percentile, Heatmap.mkCell_percentile]
    exact percentileRank_percentilesOf_mono _ (le_of_lt hlt)

/-- C4 (witness): the percentiles of the single-point grid are sorted and
its cells are count-monotone. -/
theorem C4_witness :
    List.Sorted (· ≤ ·) (Heatmap.processCSV singleCrime).percentiles :=
  (C4_theorem singleCrime (by simp [singleCrime])).1


namespace Lighting

/-- The `percentile` field of an emitted lighting cell is the rank of its
light count. -/
theorem mkLightCell_percentile (ps : List ℕ) (d : LightingRow) :
    (mkCell ps d).percentile = percentileRank ps d.lightCount := rfl

/-- The `lightingScore` field of an emitted lighting cell is
`100 - percentile * 0.9`. -/
theorem mkCell_lightingScore (ps : List ℕ) (d : LightingRow) :
    (mkCell ps d).lightingScore =
      100 - ((percentileRank ps d.lightCount : ℚ)) * 0.9 := rfl

end Lighting

/-- The thresholds for the two-row lighting demo. -/
theorem lightRows_percentiles :
    percentilesOf (Lighting.sortedCounts lightRows) = [1, 1, 1, 1, 2, 2, 2, 2, 2, 2] := by
  decide

/-- The cells of the two-row lighting demo. -/
theorem lightRows_cells :
    (Lighting.processCSV lightRows).cells =
      [Lighting.mkCell [1, 1, 1, 1, 2, 2, 2, 2, 2, 2] { latBin := 0, lonBin := 0, lightCount := 1 },
       Lighting.mkCell [1, 1, 1, 1, 2, 2, 2, 2, 2, 2] { latBin := 0, lonBin := 1, lightCount := 2 }] := by
  have h : (Lighting.processCSV lightRows).cells =
      lightRows.map (Lighting.mkCell (percentilesOf (Lighting.sortedCounts lightRows))) := rfl
  rw [h, lightRows_percentiles]
  rfl

/-- C2.  The code computes `lightingScore = 100 - percentile * 0.9`, which
strictly decreases in the percentile: on two rows with light counts 1 and
2 the cells get percentiles 10 and 50 but lighting scores 91 and 55, so a
strictly higher percentile yields a strictly lower score, contradicting
the higher-percentile-means-better-lit contract. -/
theorem C2_theorem :
    ((Lighting.processCSV lightRows).cells.map Lighting.LightingCell.percentile = [10, 50]) ∧
    ((Lighting.processCSV lightRows).cells.map Lighting.LightingCell.lightingScore = [91, 55]) ∧
    ¬ (∀ c1 ∈ (Lighting.processCSV lightRows).cells, ∀ c2 ∈ (Lighting.processCSV lightRows).cells,
        c1.percentile < c2.percentile → c1.lightingScore ≤ c2.lightingScore) := by
  have h1 : percentileRank [1, 1, 1, 1, 2, 2, 2, 2, 2, 2] 1 = 10 := by decide
  have h2 : percentileRank [1, 1, 1, 1, 2, 2, 2, 2, 2, 2] 2 = 50 := by decide
  rw [lightRows_cells]
  refine ⟨?_, ?_, ?_⟩
  · simp [Lighting.mkLightCell_percentile, h1, h2]
  · simp only [List.map_cons, List.map_nil, Lighting.mkCell_lightingScore, h1, h2]
    norm_num
  · intro hmono
    have hlt : (Lighting.mkCell [1, 1, 1, 1, 2, 2, 2, 2, 2, 2]
          { latBin := 0, lonBin := 0, lightCount := 1 }).percentile <
        (Lighting.mkCell [1, 1, 1, 1, 2, 2, 2, 2, 2, 2]
          { latBin := 0, lonBin := 1, lightCount := 2 }).percentile := by
      rw [Lighting.mkLightCell_percentile, Lighting.mkLightCell_percentile, h1, h2]
      norm_num
    have hx := hmono _ (by simp) _ (by simp) hlt
    rw [Lighting.mkCell_lightingScore, Lighting.mkCell_lightingScore, h1, h2] at hx
    norm_num at hx

/-- C10.  Every emitted lighting cell satisfies
`lightingScore = 100 - percentile * 0.9` with percentile a decile value in
`{10, ..., 100}`, hence the score lies in `[10, 91]` and never exceeds
91. -/
theorem C10_theorem (rows : List Lighting.LightingRow) :
    ∀ cell ∈ (Lighting.processCSV rows).cells,
      cell.lightingScore = 100 - (cell.percentile : ℚ) * 0.9 ∧
      cell.percentile ∈ ([10, 20, 30, 40, 50, 60, 70, 80, 90, 100] : List ℕ) ∧
      10 ≤ cell.lightingScore ∧ cell.lightingScore ≤ 91 := by
  intro cell hcell
  have hc : cell ∈ rows.map (Lighting.mkCell (percentilesOf (Lighting.sortedCounts rows))) := by
    simpa [Lighting.processCSV] using hcell
  obtain ⟨d, hd, he⟩ := List.mem_map.mp hc
  subst he
  have hmem := percentileRank_percentilesOf_mem (Lighting.sortedCounts rows) d.lightCount
  have hbd : ∀ x ∈ ([10, 20, 30, 40, 50, 60, 70, 80, 90, 100] : List ℕ),
      10 ≤ x ∧ x ≤ 100 := by decide
  have hbounds := hbd _ hmem
  have hp10 : (10 : ℚ) ≤ (percentileRank (percentilesOf (Lighting.sortedCounts rows)) d.lightCount : ℚ) := by
    exact_mod_cast hbounds.1
  have hp100 : (percentileRank (percentilesOf (Lighting.sortedCounts rows)) d.lightCount : ℚ) ≤ 100 := by
    exact_mod_cast hbounds.2
  refine ⟨rfl, ?_, ?_, ?_⟩
  · rw [Lighting.mkLightCell_percentile]
    exact hmem
  · rw [Lighting.mkCell_lightingScore]
    linarith
  · rw [Lighting.mkCell_lightingScore]
    linarith

/-- C10 (witness): the first demo lighting cell has score
`100 - 10 * 0.9 = 91`, a decile percentile, and a score within bounds. -/
theorem C10_witness :
    (Lighting.mkCell (percentilesOf (Lighting.sortedCounts lightRows))
        { latBin := 0, lonBin := 0, lightCount := 1 }).lightingScore =
      100 - ((Lighting.mkCell (percentilesOf (Lighting.sortedCounts lightRows))
        { latBin := 0, lonBin := 0, lightCount := 1 }).percentile : ℚ) * 0.9 ∧
    (Lighting.mkCell (percentilesOf (Lighting.sortedCounts lightRows))
        { latBin := 0, lonBin := 0, lightCount := 1 }).percentile ∈
      ([10, 20, 30, 40, 50, 60, 70, 80, 90, 100] : List ℕ) ∧
    10 ≤ (Lighting.mkCell (percentilesOf (Lighting.sortedCounts lightRows))
        { latBin := 0, lonBin := 0, lightCount := 1 }).lightingScore ∧
    (Lighting.mkCell (percentilesOf (Lighting.sortedCounts lightRows))
        { latBin := 0, lonBin := 0, lightCount := 1 }).lightingScore ≤ 91 :=
  C10_theorem lightRows _ (by
    simp only [Lighting.processCSV, lightRows, List.map_cons, List.map_nil, List.mem_cons]
    left
    trivial)


/-- C5.  `filterValidReports` retains a report iff it is fresh
(`now - timestamp < 48h`) or confirmed (`upvotes ≥ 3`), and its confidence
(`upvotes / (upvotes + downvotes) * 100`, `0` with no votes) is at least
50. -/
theorem C5_theorem (now : ℤ) (reports : List Reports.CommunityReport)
    (r : Reports.CommunityReport) :
    r ∈ Reports.filterValidReports now reports ↔
      r ∈ reports ∧
        ((now - r.timestamp < 48 * 60 * 60 * 1000 ∨ 3 ≤ r.upvotes) ∧
          50 ≤ (if r.upvotes + r.downvotes = 0 then (0 : ℚ)
                else ((r.upvotes : ℚ) / ((r.upvotes : ℚ) + (r.downvotes : ℚ))) * 100)) := by
  have hcast : ((r.upvotes + r.downvotes : ℕ) : ℚ) = (r.upvotes : ℚ) + (r.downvotes : ℚ) := by
    push_cast
    ring
  rw [Reports.filterValidReports, List.mem_filter]
  simp only [Bool.and_eq_true, Bool.or_eq_true, decide_eq_true_eq, Reports.isReportFresh,
    Reports.getConfidenceScore, hcast]

/-- C6.  `calculateReportImpact` is the base impact of the report type
(`-15 / -20 / -25 / -30`) scaled by confidence over 100; in particular the
blocked-path example with 10 upvotes and no downvotes has confidence 100
and impact `-30`. -/
theorem C6_theorem :
    (∀ r : Reports.CommunityReport,
        Reports.calculateReportImpact r =
          Reports.baseImpact r.type *
            (Reports.getConfidenceScore r.upvotes r.downvotes / 100)) ∧
    Reports.baseImpact Reports.ReportType.bad_lighting = -15 ∧
    Reports.baseImpact Reports.ReportType.no_sidewalk = -20 ∧
    Reports.baseImpact Reports.ReportType.suspicious_area = -25 ∧
    Reports.baseImpact Reports.ReportType.blocked_path = -30 ∧
    Reports.getConfidenceScore blockedReport.upvotes blockedReport.downvotes = 100 ∧
    Reports.calculateReportImpact blockedReport = -30 := by
  refine ⟨fun r => rfl, rfl, rfl, rfl, rfl, ?_, ?_⟩
  · norm_num [Reports.getConfidenceScore, blockedReport]
  · norm_num [Reports.calculateReportImpact, Reports.getConfidenceScore, Reports.baseImpact,
      blockedReport]

/-- C7.  A report with no votes has confidence 0 (the zero-total branch,
never `0/0`), is always filtered out no matter how fresh it is, and
contributes zero impact. -/
theorem C7_theorem (now : ℤ) (reports : List Reports.CommunityReport)
    (r : Reports.CommunityReport) (hu : r.upvotes = 0) (hd : r.downvotes = 0) :
    Reports.getConfidenceScore r.upvotes r.downvotes = 0 ∧
    r ∉ Reports.filterValidReports now reports ∧
    Reports.calculateReportImpact r = 0 := by
  have hc : Reports.getConfidenceScore r.upvotes r.downvotes = 0 := by
    simp [Reports.getConfidenceScore, hu, hd]
  refine ⟨hc, ?_, ?_⟩
  · intro hmem
    rw [Reports.filterValidReports, List.mem_filter] at hmem
    have h2 := hmem.2
    simp only [Bool.and_eq_true, decide_eq_true_eq, hc] at h2
    exact absurd h2.2 (by norm_num)
  · simp [Reports.calculateReportImpact, hc]

/-- C7 (witness): the zero-vote demo report is rejected with zero
confidence and zero impact. -/
theorem C7_witness :
    Reports.getConfidenceScore zeroVoteReport.upvotes zeroVoteReport.downvotes = 0 ∧
    zeroVoteReport ∉ Reports.filterValidReports 0 [zeroVoteReport] ∧
    Reports.calculateReportImpact zeroVoteReport = 0 :=
  C7_theorem 0 [zeroVoteReport] zeroVoteReport rfl rfl

/-- C8.  (Spec-modelled `compareRoutes`.)  The three selections are always
entries of the returned `routes` list, and on a single-candidate input all
three selections are that one candidate. -/
theorem C8_theorem (r : Routes.RouteScore) (rest : List Routes.RouteScore) :
    (Routes.compareRoutes r rest).shortest ∈ (Routes.compareRoutes r rest).routes ∧
    (Routes.compareRoutes r rest).safest ∈ (Routes.compareRoutes r rest).routes ∧
    (Routes.compareRoutes r rest).balanced ∈ (Routes.compareRoutes r rest).routes ∧
    (Routes.compareRoutes r []).routes = [r] ∧
    (Routes.compareRoutes r []).shortest = r ∧
    (Routes.compareRoutes r []).safest = r ∧
    (Routes.compareRoutes r []).balanced = r := by
  refine ⟨?_, ?_, ?_, rfl, rfl, rfl, rfl⟩ <;>
    exact Routes.selectBest_mem _ _ _

/-- C9.  `handleVote` preserves the list length; at every position the
report is unchanged when its id differs from the voted id, and otherwise
exactly the voted counter is incremented by one with every other field
unchanged. -/
theorem C9_theorem (reportId : String) (v : Reports.VoteType)
    (l : List Reports.CommunityReport) (i : ℕ) (h1 : i < l.length)
    (h2 : i < (Reports.handleVote reportId v l).length) :
    (Reports.handleVote reportId v l).length = l.length ∧
    (l[i].id ≠ reportId → (Reports.handleVote reportId v l)[i] = l[i]) ∧
    (l[i].id = reportId →
      (Reports.handleVote reportId v l)[i].upvotes =
          (if v = Reports.VoteType.up then l[i].upvotes + 1 else l[i].upvotes) ∧
      (Reports.handleVote reportId v l)[i].downvotes =
          (if v = Reports.VoteType.down then l[i].downvotes + 1 else l[i].downvotes) ∧
      (Reports.handleVote reportId v l)[i].id = l[i].id ∧
      (Reports.handleVote reportId v l)[i].lat = l[i].lat ∧
      (Reports.handleVote reportId v l)[i].lng = l[i].lng ∧
      (Reports.handleVote reportId v l)[i].type = l[i].type ∧
      (Reports.handleVote reportId v l)[i].description = l[i].description ∧
      (Reports.handleVote reportId v l)[i].timestamp = l[i].timestamp ∧
      (Reports.handleVote reportId v l)[i].reportedBy = l[i].reportedBy) := by
  have hget : (Reports.handleVote reportId v l)[i] =
      if l[i].id = reportId then
        { l[i] with
          upvotes := if v = Reports.VoteType.up then l[i].upvotes + 1 else l[i].upvotes
          downvotes := if v = Reports.VoteType.down then l[i].downvotes + 1 else l[i].downvotes }
      else l[i] := by
    simp [Reports.handleVote]
  refine ⟨by simp [Reports.handleVote], ?_, ?_⟩
  · intro hid
    rw [hget, if_neg hid]
  · intro hid
    rw [hget, if_pos hid]
    exact ⟨rfl, rfl, rfl, rfl, rfl, rfl, rfl, rfl, rfl⟩

/-- C9 (witness): voting up on the one-report demo list keeps the length
and bumps the matching report's upvote counter by one. -/
theorem C9_witness :
    (Reports.handleVote "a" Reports.VoteType.up voteDemo).length = voteDemo.length ∧
    ((Reports.handleVote "a" Reports.VoteType.up voteDemo).getD 0 zeroVoteReport).upvotes =
      (voteDemo.getD 0 zeroVoteReport).upvotes + 1 := by
  have h1 : 0 < voteDemo.length := by simp [voteDemo]
  have h2 : 0 < (Reports.handleVote "a" Reports.VoteType.up voteDemo).length := by
    simp [Reports.handleVote, voteDemo]
  have h := C9_theorem "a" Reports.VoteType.up voteDemo 0 h1 h2
  refine ⟨h.1, ?_⟩
  have hid : voteDemo[0].id = "a" := rfl
  have hu := (h.2.2 hid).1
  rw [if_pos rfl] at hu
  rw [List.getD_eq_getElem _ _ h2, List.getD_eq_getElem _ _ h1, hu]

end StreetSmart
